import Mathlib

/-!
Verification of the position-estimation engine of a wireless-client
tracking exporter.  The definitions below are a shallow embedding of
`triangulation.py`: Python floats are modelled as real numbers, the
anchor registry (`self.ap_coordinates`, a dict) as a lookup function
`String → Option APCoordinates`, and the per-client result dict of
`track_clients` as its lookup function on MAC addresses.  `Option` in a
result type models a Python code path that raises an exception
(`ValueError` / `ZeroDivisionError`), which the source catches.
-/

/-- Physical coordinates of an Access Point (`APCoordinates` dataclass). -/
structure APCoordinates where
  x : ℝ
  y : ℝ
  z : ℝ
  name : String

/-- Client signal data from a specific AP (`ClientSignal` dataclass). -/
structure ClientSignal where
  mac_address : String
  ap_name : String
  rssi : ℝ
  timestamp : ℝ
  frequency : ℝ

/-- Estimated client location with confidence (`LocationEstimate` NamedTuple). -/
structure LocationEstimate where
  x : ℝ
  y : ℝ
  confidence : ℝ
  num_aps : ℕ
  error_radius : ℝ

/-- Path-loss model parameters chosen in `WastelandTriangulator.__init__`. -/
structure TriangulatorParams where
  reference_distance : ℝ
  reference_rssi : ℝ
  path_loss_exponent : ℝ
  shadow_std : ℝ

/-- The three environment profiles of `WastelandTriangulator.__init__`:
"indoor", "outdoor", and the default (vault/bunker) branch. -/
def mkParams (environment_type : String) : TriangulatorParams :=
  if environment_type = "indoor" then ⟨1.0, -30, 2.5, 4.0⟩
  else if environment_type = "outdoor" then ⟨1.0, -30, 3.5, 8.0⟩
  else ⟨1.0, -35, 3.0, 6.0⟩

/-- Python `max` over a nonempty list of floats (callers never pass `[]`;
the `[]` value is irrelevant junk). -/
def pyMax (l : List ℝ) : ℝ :=
  match l with
  | [] => 0
  | x :: xs => xs.foldl max x

/-- Python `statistics.mean`: sum divided by length (callers never pass `[]`). -/
noncomputable def pyMean (l : List ℝ) : ℝ := l.sum / l.length

/-- Frequency correction term of `rssi_to_distance`:
`20 * math.log10(frequency / 2.4) if frequency != 2.4 else 0`. -/
noncomputable def freq_correction (frequency : ℝ) : ℝ :=
  if frequency ≠ 2.4 then 20 * Real.logb 10 (frequency / 2.4) else 0

/-- The unclamped path-loss distance of `rssi_to_distance`:
`reference_distance * (10 ** (db_loss / (10 * path_loss_exponent)))` with
`db_loss = reference_rssi - (rssi - freq_correction)`. -/
noncomputable def raw_distance (p : TriangulatorParams) (rssi frequency : ℝ) : ℝ :=
  p.reference_distance *
    (10 : ℝ) ^ ((p.reference_rssi - (rssi - freq_correction frequency)) /
      (10 * p.path_loss_exponent))

/-- `WastelandTriangulator.rssi_to_distance`: early-return 0.5 for readings
stronger than the reference, otherwise the path-loss distance clamped to
`[1.0, 100.0]` via `max(1.0, min(100.0, distance))`. -/
noncomputable def rssi_to_distance (p : TriangulatorParams) (rssi : ℝ)
    (frequency : ℝ) : ℝ :=
  if rssi > p.reference_rssi then 0.5
  else max 1.0 (min 100.0 (raw_distance p rssi frequency))

/-- The local `d_ap` of `_trilaterate_2ap`:
`math.sqrt(dx**2 + dy**2)` with `dx = ap2.x - ap1.x`, `dy = ap2.y - ap1.y`. -/
noncomputable def two_ap_d (ap1 ap2 : APCoordinates) : ℝ :=
  Real.sqrt ((ap2.x - ap1.x) ^ 2 + (ap2.y - ap1.y) ^ 2)

/-- The local `a` of `_trilaterate_2ap`:
`(d1**2 - d2**2 + d_ap**2) / (2 * d_ap)`. -/
noncomputable def two_ap_a (ap1 ap2 : APCoordinates) (d1 d2 : ℝ) : ℝ :=
  (d1 ^ 2 - d2 ^ 2 + two_ap_d ap1 ap2 ^ 2) / (2 * two_ap_d ap1 ap2)

/-- The local `h_sq` of `_trilaterate_2ap`: `d1**2 - a**2`. -/
noncomputable def two_ap_h_sq (ap1 ap2 : APCoordinates) (d1 d2 : ℝ) : ℝ :=
  d1 ^ 2 - two_ap_a ap1 ap2 d1 d2 ^ 2

/-- The baseline projection point x-coordinate (`px` in the source, also
the `x` of the non-intersecting branch): `ap1.x + a * dx / d_ap`. -/
noncomputable def two_ap_px (ap1 ap2 : APCoordinates) (d1 d2 : ℝ) : ℝ :=
  ap1.x + two_ap_a ap1 ap2 d1 d2 * (ap2.x - ap1.x) / two_ap_d ap1 ap2

/-- The baseline projection point y-coordinate (`py` in the source):
`ap1.y + a * dy / d_ap`. -/
noncomputable def two_ap_py (ap1 ap2 : APCoordinates) (d1 d2 : ℝ) : ℝ :=
  ap1.y + two_ap_a ap1 ap2 d1 d2 * (ap2.y - ap1.y) / two_ap_d ap1 ap2

/-- First circle-intersection candidate, x-coordinate
(`x1 = px + h * (-dy) / d_ap`, `h = math.sqrt(h_sq)`). -/
noncomputable def two_ap_x1 (ap1 ap2 : APCoordinates) (d1 d2 : ℝ) : ℝ :=
  two_ap_px ap1 ap2 d1 d2 +
    Real.sqrt (two_ap_h_sq ap1 ap2 d1 d2) * (-(ap2.y - ap1.y)) / two_ap_d ap1 ap2

/-- First circle-intersection candidate, y-coordinate
(`y1 = py + h * dx / d_ap`). -/
noncomputable def two_ap_y1 (ap1 ap2 : APCoordinates) (d1 d2 : ℝ) : ℝ :=
  two_ap_py ap1 ap2 d1 d2 +
    Real.sqrt (two_ap_h_sq ap1 ap2 d1 d2) * (ap2.x - ap1.x) / two_ap_d ap1 ap2

/-- Second circle-intersection candidate, x-coordinate
(`x2 = px - h * (-dy) / d_ap`). -/
noncomputable def two_ap_x2 (ap1 ap2 : APCoordinates) (d1 d2 : ℝ) : ℝ :=
  two_ap_px ap1 ap2 d1 d2 -
    Real.sqrt (two_ap_h_sq ap1 ap2 d1 d2) * (-(ap2.y - ap1.y)) / two_ap_d ap1 ap2

/-- Second circle-intersection candidate, y-coordinate
(`y2 = py - h * dx / d_ap`). -/
noncomputable def two_ap_y2 (ap1 ap2 : APCoordinates) (d1 d2 : ℝ) : ℝ :=
  two_ap_py ap1 ap2 d1 d2 -
    Real.sqrt (two_ap_h_sq ap1 ap2 d1 d2) * (ap2.x - ap1.x) / two_ap_d ap1 ap2

/-- The `try:` block of `_trilaterate_2ap` (the lines computing `a`,
`h_sq` and the branch on `h_sq`).  `none` models a raised
`ZeroDivisionError`: every division of the block is guarded by its
denominator being nonzero.  (`math.sqrt` is only reached with the checked
argument `h_sq >= 0`, so it can raise no `ValueError` there.) -/
noncomputable def _trilaterate_2ap_try (ap1 ap2 : APCoordinates) (d1 d2 : ℝ) :
    Option (ℝ × ℝ × ℝ) :=
  if 2 * two_ap_d ap1 ap2 = 0 then none
  else if two_ap_h_sq ap1 ap2 d1 d2 < 0 then
    if two_ap_d ap1 ap2 = 0 then none
    else some (two_ap_px ap1 ap2 d1 d2, two_ap_py ap1 ap2 d1 d2, 0.3)
  else
    if two_ap_d ap1 ap2 = 0 then none
    else
      some ((two_ap_x1 ap1 ap2 d1 d2 + two_ap_x2 ap1 ap2 d1 d2) / 2,
            (two_ap_y1 ap1 ap2 d1 d2 + two_ap_y2 ap1 ap2 d1 d2) / 2, 0.7)

/-- `WastelandTriangulator._trilaterate_2ap`: uses the first two pairs; the
`d_ap == 0` coincident-anchor early return, then the `try:` block with its
`except (ValueError, ZeroDivisionError)` midpoint fallback (confidence 0.2).
The impossible sub-two-element case is junk (Python would raise on unpack;
every caller guarantees two entries). -/
noncomputable def _trilaterate_2ap (ap_distances : List (APCoordinates × ℝ)) :
    LocationEstimate :=
  match ap_distances with
  | (ap1, d1) :: (ap2, d2) :: _ =>
    if two_ap_d ap1 ap2 = 0 then ⟨ap1.x, ap1.y, 0.1, 2, max d1 d2⟩
    else
      match _trilaterate_2ap_try ap1 ap2 d1 d2 with
      | some (x, y, confidence) => ⟨x, y, confidence, 2, max d1 d2 * 0.3⟩
      | none => ⟨(ap1.x + ap2.x) / 2, (ap1.y + ap2.y) / 2, 0.2, 2, max d1 d2 * 0.3⟩
  | _ => ⟨0, 0, 0, 0, 0⟩

/-- The rows of the linearized system of `_trilaterate_multiap`: one
triple `(A[i][0], A[i][1], b[i])` per non-reference pair, built exactly as
in the source loop `for i in range(1, n)` (the reference pair is
`ap_distances[0]`, `rest` the remaining pairs). -/
def lsRows (ref_ap : APCoordinates) (ref_dist : ℝ)
    (rest : List (APCoordinates × ℝ)) : List (ℝ × ℝ × ℝ) :=
  rest.map (fun pr =>
    (2 * (pr.1.x - ref_ap.x), 2 * (pr.1.y - ref_ap.y),
     pr.1.x ^ 2 + pr.1.y ^ 2 - ref_ap.x ^ 2 - ref_ap.y ^ 2 +
       ref_dist ^ 2 - pr.2 ^ 2))

/-- `ATA[0][0]` of `_trilaterate_multiap`: sum of products of first columns. -/
def ATA00 (rows : List (ℝ × ℝ × ℝ)) : ℝ := (rows.map fun r => r.1 * r.1).sum

/-- `ATA[0][1]` of `_trilaterate_multiap`. -/
def ATA01 (rows : List (ℝ × ℝ × ℝ)) : ℝ := (rows.map fun r => r.1 * r.2.1).sum

/-- `ATA[1][0]` of `_trilaterate_multiap`. -/
def ATA10 (rows : List (ℝ × ℝ × ℝ)) : ℝ := (rows.map fun r => r.2.1 * r.1).sum

/-- `ATA[1][1]` of `_trilaterate_multiap`. -/
def ATA11 (rows : List (ℝ × ℝ × ℝ)) : ℝ := (rows.map fun r => r.2.1 * r.2.1).sum

/-- `ATb[0]` of `_trilaterate_multiap`. -/
def ATb0 (rows : List (ℝ × ℝ × ℝ)) : ℝ := (rows.map fun r => r.1 * r.2.2).sum

/-- `ATb[1]` of `_trilaterate_multiap`. -/
def ATb1 (rows : List (ℝ × ℝ × ℝ)) : ℝ := (rows.map fun r => r.2.1 * r.2.2).sum

/-- `det = ATA[0][0]*ATA[1][1] - ATA[0][1]*ATA[1][0]`. -/
def normalDet (rows : List (ℝ × ℝ × ℝ)) : ℝ :=
  ATA00 rows * ATA11 rows - ATA01 rows * ATA10 rows

/-- `WastelandTriangulator._trilaterate_multiap`.  The Python `try:` block
raises `ValueError` when `abs(det) < 1e-10` and `ZeroDivisionError` in the
confidence computation when `max_dist == 0`; both are caught by the
`except` clause, which yields the centroid fallback — hence the fallback
condition `|det| < 1e-10 ∨ max_dist = 0`.  The empty case is junk (Python
would raise on `ap_distances[0]`; every caller guarantees three pairs). -/
noncomputable def _trilaterate_multiap (ap_distances : List (APCoordinates × ℝ)) :
    LocationEstimate :=
  match ap_distances with
  | [] => ⟨0, 0, 0, 0, 0⟩
  | (ref_ap, ref_dist) :: rest =>
    let rows := lsRows ref_ap ref_dist rest
    let det := normalDet rows
    let max_dist := pyMax (ap_distances.map fun pr => pr.2)
    if |det| < 1e-10 ∨ max_dist = 0 then
      ⟨pyMean (ap_distances.map fun pr => pr.1.x),
       pyMean (ap_distances.map fun pr => pr.1.y),
       0.3, ap_distances.length,
       pyMean (ap_distances.map fun pr => pr.2) * 0.5⟩
    else
      let x := (ATA11 rows * ATb0 rows - ATA01 rows * ATb1 rows) / det
      let y := (ATA00 rows * ATb1 rows - ATA10 rows * ATb0 rows) / det
      let residuals := ap_distances.map
        (fun pr => |Real.sqrt ((x - pr.1.x) ^ 2 + (y - pr.1.y) ^ 2) - pr.2|)
      let avg_error := pyMean residuals
      ⟨x, y, max 0.1 (1.0 - avg_error / max_dist), ap_distances.length, avg_error⟩

/-- The usable `(anchor, distance)` pairs built by the loop of
`trilaterate`: signals naming an unregistered anchor are skipped
(`continue`), the rest are converted through `rssi_to_distance`. -/
noncomputable def ap_distances (reg : String → Option APCoordinates)
    (p : TriangulatorParams) (signals : List ClientSignal) :
    List (APCoordinates × ℝ) :=
  signals.filterMap fun s =>
    (reg s.ap_name).map fun ap => (ap, rssi_to_distance p s.rssi s.frequency)

/-- `WastelandTriangulator.trilaterate`: `None` for fewer than two signals,
`None` for fewer than two usable pairs, the two-anchor solve for exactly
two pairs, the least-squares solve otherwise. -/
noncomputable def trilaterate (reg : String → Option APCoordinates)
    (p : TriangulatorParams) (signals : List ClientSignal) :
    Option LocationEstimate :=
  if signals.length < 2 then none
  else
    let pairs := ap_distances reg p signals
    if pairs.length < 2 then none
    else if pairs.length = 2 then some (_trilaterate_2ap pairs)
    else some (_trilaterate_multiap pairs)

/-- The per-client signal group of `track_clients`
(`client_signals[signal.mac_address].append(signal)`, order preserved). -/
def clientGroup (all_signals : List ClientSignal) (mac : String) :
    List ClientSignal :=
  all_signals.filter fun s => s.mac_address = mac

/-- The 30-second recency filter of `track_clients`:
`latest_time = max(s.timestamp for s in signals)` and
`[s for s in signals if latest_time - s.timestamp <= 30]`; `[]` for an
empty group (the source guards with `if signals:`). -/
noncomputable def recent_signals (signals : List ClientSignal) :
    List ClientSignal :=
  match signals with
  | [] => []
  | _ =>
    signals.filter fun s =>
      pyMax (signals.map fun t => t.timestamp) - s.timestamp ≤ 30

/-- `WastelandTriangulator.track_clients`, modelled as the lookup function
of the returned dict: `track_clients reg p all_signals mac` is the value
stored under key `mac` (`none` when `mac` is absent).  A MAC is a key
exactly when its recency-filtered group is nonempty, `trilaterate`
returns a location, and `location.confidence > 0.1`. -/
noncomputable def track_clients (reg : String → Option APCoordinates)
    (p : TriangulatorParams) (all_signals : List ClientSignal)
    (mac : String) : Option LocationEstimate :=
  match recent_signals (clientGroup all_signals mac) with
  | [] => none
  | recent =>
    match trilaterate reg p recent with
    | some location => if location.confidence > 0.1 then some location else none
    | none => none

/-- Every environment profile fixes `reference_distance = 1` and a
strictly positive path-loss exponent. -/
lemma mkParams_fields (env : String) :
    (mkParams env).reference_distance = 1 ∧ 0 < (mkParams env).path_loss_exponent := by
  unfold mkParams
  split_ifs <;> exact ⟨by norm_num, by norm_num⟩

/-- Pointwise equal functions have equal mapped sums. -/
lemma sum_map_congr {α : Type} (l : List α) (f g : α → ℝ)
    (h : ∀ a ∈ l, f a = g a) : (l.map f).sum = (l.map g).sum := by
  induction l with
  | nil => rfl
  | cons x xs ih =>
    simp only [List.map_cons, List.sum_cons]
    rw [h x (List.mem_cons_self x xs),
      ih (fun a ha => h a (List.mem_cons_of_mem x ha))]

/-- Sums of mapped linear combinations split. -/
lemma sum_map_linear {α : Type} (l : List α) (f g : α → ℝ) (c d : ℝ) :
    (l.map fun r => c * f r + d * g r).sum =
      c * (l.map f).sum + d * (l.map g).sum := by
  induction l with
  | nil => simp
  | cons x xs ih =>
    simp only [List.map_cons, List.sum_cons, ih]
    ring

/-- The normal matrix is symmetric: `ATA[1][0] = ATA[0][1]`. -/
lemma ATA10_eq_ATA01 (rows : List (ℝ × ℝ × ℝ)) :
    ATA10 rows = ATA01 rows :=
  sum_map_congr rows _ _ (fun r _ => mul_comm r.2.1 r.1)

/-- Every element of a list is bounded by the running `max` fold. -/
lemma foldl_max_bounds (ys : List ℝ) (init : ℝ) :
    init ≤ ys.foldl max init ∧ ∀ x ∈ ys, x ≤ ys.foldl max init := by
  induction ys generalizing init with
  | nil => simp
  | cons z zs ih =>
    refine ⟨?_, ?_⟩
    · exact le_trans (le_max_left init z) (ih (max init z)).1
    · intro x hx
      rcases List.mem_cons.mp hx with rfl | hx'
      · exact le_trans (le_max_right init x) (ih (max init x)).1
      · exact (ih (max init z)).2 x hx'

/-- Every element of a nonempty list is at most its Python `max`. -/
lemma le_pyMax (l : List ℝ) (x : ℝ) (hx : x ∈ l) : x ≤ pyMax l := by
  match l with
  | y :: ys =>
    rcases List.mem_cons.mp hx with rfl | hx'
    · exact (foldl_max_bounds ys x).1
    · exact (foldl_max_bounds ys y).2 x hx'

/-- The anchors of a pair list all lie on one line `u*x + v*y = c` with
`(u, v) ≠ (0, 0)` (the degenerate geometry of the centroid fallback). -/
def CollinearAnchors (pairs : List (APCoordinates × ℝ)) : Prop :=
  ∃ u v c : ℝ, (u ≠ 0 ∨ v ≠ 0) ∧ ∀ pr ∈ pairs, u * pr.1.x + v * pr.1.y = c

/-- Collinear anchors make the normal-equations determinant exactly zero:
every row of the linearized system is orthogonal to the line normal, so
the Gram matrix has rank at most one. -/
lemma collinear_normalDet_zero (ref_ap : APCoordinates) (ref_dist : ℝ)
    (rest : List (APCoordinates × ℝ))
    (hcol : CollinearAnchors ((ref_ap, ref_dist) :: rest)) :
    normalDet (lsRows ref_ap ref_dist rest) = 0 := by
  obtain ⟨u, v, c, huv, hline⟩ := hcol
  have href : u * ref_ap.x + v * ref_ap.y = c :=
    hline (ref_ap, ref_dist) (List.mem_cons_self _ _)
  have hrow : ∀ r ∈ lsRows ref_ap ref_dist rest, u * r.1 + v * r.2.1 = 0 := by
    intro r hr
    rw [lsRows, List.mem_map] at hr
    obtain ⟨pr, hpr, rfl⟩ := hr
    have hp := hline pr (List.mem_cons_of_mem _ hpr)
    dsimp only
    linear_combination 2 * hp - 2 * href
  have hA : v * ATA01 (lsRows ref_ap ref_dist rest) +
      u * ATA00 (lsRows ref_ap ref_dist rest) = 0 := by
    unfold ATA01 ATA00
    rw [← sum_map_linear,
      sum_map_congr _ _ (fun _ => (0 : ℝ))
        (fun r hr => by linear_combination r.1 * hrow r hr)]
    simp
  have hB : u * ATA01 (lsRows ref_ap ref_dist rest) +
      v * ATA11 (lsRows ref_ap ref_dist rest) = 0 := by
    unfold ATA01 ATA11
    rw [← sum_map_linear,
      sum_map_congr _ _ (fun _ => (0 : ℝ))
        (fun r hr => by linear_combination r.2.1 * hrow r hr)]
    simp
  unfold normalDet
  rw [ATA10_eq_ATA01]
  rcases huv with hu | hv
  · have h0 : u * (ATA00 (lsRows ref_ap ref_dist rest) *
        ATA11 (lsRows ref_ap ref_dist rest) -
        ATA01 (lsRows ref_ap ref_dist rest) *
        ATA01 (lsRows ref_ap ref_dist rest)) = 0 := by
      linear_combination ATA11 (lsRows ref_ap ref_dist rest) * hA -
        ATA01 (lsRows ref_ap ref_dist rest) * hB
    exact (mul_eq_zero.mp h0).resolve_left hu
  · have h0 : v * (ATA00 (lsRows ref_ap ref_dist rest) *
        ATA11 (lsRows ref_ap ref_dist rest) -
        ATA01 (lsRows ref_ap ref_dist rest) *
        ATA01 (lsRows ref_ap ref_dist rest)) = 0 := by
      linear_combination ATA00 (lsRows ref_ap ref_dist rest) * hB -
        ATA01 (lsRows ref_ap ref_dist rest) * hA
    exact (mul_eq_zero.mp h0).resolve_left hv

/-- C3: for every environment profile and fixed frequency,
`rssi_to_distance` is monotonically non-increasing in the signal strength,
its value lies in `[1.0, 100.0]` whenever the reading is at most the
profile's reference RSSI, and it is exactly `0.5` whenever the reading is
strictly stronger than the reference RSSI. -/
theorem rssi_to_distance_monotone_bounded (env : String) (freq r1 r2 r : ℝ)
    (h : r1 ≤ r2) :
    rssi_to_distance (mkParams env) r2 freq ≤
      rssi_to_distance (mkParams env) r1 freq ∧
    (r ≤ (mkParams env).reference_rssi →
      1 ≤ rssi_to_distance (mkParams env) r freq ∧
      rssi_to_distance (mkParams env) r freq ≤ 100) ∧
    ((mkParams env).reference_rssi < r →
      rssi_to_distance (mkParams env) r freq = 0.5) := by
  obtain ⟨hd, hn⟩ := mkParams_fields env
  refine ⟨?_, ?_, ?_⟩
  · unfold rssi_to_distance
    split_ifs with ha hb hb
    · exact le_refl _
    · exact le_trans (by norm_num) (le_max_left 1.0 _)
    · exact absurd (lt_of_le_of_lt (h.trans (not_lt.mp ha)) hb) (lt_irrefl r1)
    · have hraw : raw_distance (mkParams env) r2 freq ≤
          raw_distance (mkParams env) r1 freq := by
        unfold raw_distance
        gcongr
        norm_num
      exact max_le_max (le_refl _) (min_le_min (le_refl _) hraw)
  · intro hle
    unfold rssi_to_distance
    rw [if_neg (not_lt.mpr hle)]
    refine ⟨le_trans (by norm_num) (le_max_left 1.0 _), ?_⟩
    exact le_trans (max_le (by norm_num) (min_le_left _ _)) (by norm_num)
  · intro hlt
    unfold rssi_to_distance
    rw [if_pos hlt]

/-- Witness for C3 at the indoor profile, frequency 2.4, readings
−40 ≤ −20 and probe reading −50. -/
theorem rssi_to_distance_monotone_bounded_witness :
    (-40 : ℝ) ≤ -20 ∧
    (rssi_to_distance (mkParams "indoor") (-20) 2.4 ≤
      rssi_to_distance (mkParams "indoor") (-40) 2.4 ∧
    ((-50 : ℝ) ≤ (mkParams "indoor").reference_rssi →
      1 ≤ rssi_to_distance (mkParams "indoor") (-50) 2.4 ∧
      rssi_to_distance (mkParams "indoor") (-50) 2.4 ≤ 100) ∧
    ((mkParams "indoor").reference_rssi < (-50 : ℝ) →
      rssi_to_distance (mkParams "indoor") (-50) 2.4 = 0.5)) :=
  ⟨by norm_num,
   rssi_to_distance_monotone_bounded "indoor" 2.4 (-40) (-20) (-50) (by norm_num)⟩

/-- C4: a two-anchor input whose anchors share the same (x, y)
coordinates yields exactly that coordinate with confidence 0.1 and error
radius `max d1 d2`; the result is a plain value, never a runtime failure
(the coincident branch returns before the `try:` block). -/
theorem trilaterate_2ap_coincident (ap1 ap2 : APCoordinates) (d1 d2 : ℝ)
    (rest : List (APCoordinates × ℝ)) (hx : ap1.x = ap2.x) (hy : ap1.y = ap2.y) :
    _trilaterate_2ap ((ap1, d1) :: (ap2, d2) :: rest) =
      ⟨ap1.x, ap1.y, 0.1, 2, max d1 d2⟩ := by
  have h1 : ap2.x - ap1.x = 0 := by rw [hx, sub_self]
  have h2 : ap2.y - ap1.y = 0 := by rw [hy, sub_self]
  simp [_trilaterate_2ap, two_ap_d, h1, h2, Real.sqrt_zero]

/-- Distinct anchor coordinates make the anchor baseline length positive. -/
lemma two_ap_d_pos (ap1 ap2 : APCoordinates)
    (hne : ap1.x ≠ ap2.x ∨ ap1.y ≠ ap2.y) : 0 < two_ap_d ap1 ap2 := by
  unfold two_ap_d
  apply Real.sqrt_pos.mpr
  rcases hne with h | h
  · have hx : ap2.x - ap1.x ≠ 0 := sub_ne_zero.mpr (Ne.symm h)
    have h1 : 0 < (ap2.x - ap1.x) ^ 2 :=
      (sq_nonneg _).lt_of_ne (Ne.symm (pow_ne_zero 2 hx))
    linarith [sq_nonneg (ap2.y - ap1.y)]
  · have hy : ap2.y - ap1.y ≠ 0 := sub_ne_zero.mpr (Ne.symm h)
    have h1 : 0 < (ap2.y - ap1.y) ^ 2 :=
      (sq_nonneg _).lt_of_ne (Ne.symm (pow_ne_zero 2 hy))
    linarith [sq_nonneg (ap2.x - ap1.x)]

/-- Averaging the two intersection candidates collapses to the projection
point, x-coordinate. -/
lemma two_ap_avg_x (ap1 ap2 : APCoordinates) (d1 d2 : ℝ) :
    (two_ap_x1 ap1 ap2 d1 d2 + two_ap_x2 ap1 ap2 d1 d2) / 2 =
      two_ap_px ap1 ap2 d1 d2 := by
  unfold two_ap_x1 two_ap_x2
  ring

/-- Averaging the two intersection candidates collapses to the projection
point, y-coordinate. -/
lemma two_ap_avg_y (ap1 ap2 : APCoordinates) (d1 d2 : ℝ) :
    (two_ap_y1 ap1 ap2 d1 d2 + two_ap_y2 ap1 ap2 d1 d2) / 2 =
      two_ap_py ap1 ap2 d1 d2 := by
  unfold two_ap_y1 two_ap_y2
  ring

/-- For a nonzero baseline the try-block of the two-anchor solve succeeds
and yields the projection point with the branch-dependent confidence. -/
lemma two_ap_try_eq (ap1 ap2 : APCoordinates) (d1 d2 : ℝ)
    (hd : two_ap_d ap1 ap2 ≠ 0) :
    _trilaterate_2ap_try ap1 ap2 d1 d2 =
      some (two_ap_px ap1 ap2 d1 d2, two_ap_py ap1 ap2 d1 d2,
        if two_ap_h_sq ap1 ap2 d1 d2 < 0 then 0.3 else 0.7) := by
  have h2 : ¬(2 * two_ap_d ap1 ap2 = 0) := mul_ne_zero two_ne_zero hd
  by_cases hh : two_ap_h_sq ap1 ap2 d1 d2 < 0 <;>
    simp [_trilaterate_2ap_try, h2, hd, hh, two_ap_avg_x, two_ap_avg_y]

/-- For a nonzero baseline the two-anchor solve returns the projection
point, confidence 0.3 or 0.7 depending on the discriminant sign, and error
radius `max d1 d2 * 0.3`. -/
lemma two_ap_result_eq (ap1 ap2 : APCoordinates) (d1 d2 : ℝ)
    (rest : List (APCoordinates × ℝ)) (hd : two_ap_d ap1 ap2 ≠ 0) :
    _trilaterate_2ap ((ap1, d1) :: (ap2, d2) :: rest) =
      ⟨two_ap_px ap1 ap2 d1 d2, two_ap_py ap1 ap2 d1 d2,
        if two_ap_h_sq ap1 ap2 d1 d2 < 0 then 0.3 else 0.7,
        2, max d1 d2 * 0.3⟩ := by
  unfold _trilaterate_2ap
  dsimp only
  rw [if_neg hd, two_ap_try_eq ap1 ap2 d1 d2 hd]

/-- C9: for two-anchor inputs with distinct anchor coordinates, averaging
the two circle-intersection candidates equals the baseline projection
point `(px, py)`, hence the intersecting and non-intersecting branches of
the two-anchor solve return identical coordinates and differ only in
confidence (0.7 versus 0.3). -/
theorem two_ap_branches_same_point (ap1 ap2 : APCoordinates) (d1 d2 : ℝ)
    (rest : List (APCoordinates × ℝ))
    (hne : ap1.x ≠ ap2.x ∨ ap1.y ≠ ap2.y) :
    (two_ap_x1 ap1 ap2 d1 d2 + two_ap_x2 ap1 ap2 d1 d2) / 2 =
      two_ap_px ap1 ap2 d1 d2 ∧
    (two_ap_y1 ap1 ap2 d1 d2 + two_ap_y2 ap1 ap2 d1 d2) / 2 =
      two_ap_py ap1 ap2 d1 d2 ∧
    (_trilaterate_2ap ((ap1, d1) :: (ap2, d2) :: rest)).x =
      two_ap_px ap1 ap2 d1 d2 ∧
    (_trilaterate_2ap ((ap1, d1) :: (ap2, d2) :: rest)).y =
      two_ap_py ap1 ap2 d1 d2 ∧
    (_trilaterate_2ap ((ap1, d1) :: (ap2, d2) :: rest)).confidence =
      if two_ap_h_sq ap1 ap2 d1 d2 < 0 then 0.3 else 0.7 := by
  have hd := (two_ap_d_pos ap1 ap2 hne).ne'
  rw [two_ap_result_eq ap1 ap2 d1 d2 rest hd]
  exact ⟨two_ap_avg_x ap1 ap2 d1 d2, two_ap_avg_y ap1 ap2 d1 d2, rfl, rfl, rfl⟩

/-- Witness for C9 at anchors (0, 0) and (20, 0) with equal distances 10
(intersecting circles, tangent). -/
theorem two_ap_branches_same_point_witness :
    ((APCoordinates.mk 0 0 2.5 "a").x ≠ (APCoordinates.mk 20 0 2.5 "b").x ∨
      (APCoordinates.mk 0 0 2.5 "a").y ≠ (APCoordinates.mk 20 0 2.5 "b").y) ∧
    ((two_ap_x1 (APCoordinates.mk 0 0 2.5 "a") (APCoordinates.mk 20 0 2.5 "b") 10 10 +
        two_ap_x2 (APCoordinates.mk 0 0 2.5 "a") (APCoordinates.mk 20 0 2.5 "b") 10 10) / 2 =
      two_ap_px (APCoordinates.mk 0 0 2.5 "a") (APCoordinates.mk 20 0 2.5 "b") 10 10 ∧
    (two_ap_y1 (APCoordinates.mk 0 0 2.5 "a") (APCoordinates.mk 20 0 2.5 "b") 10 10 +
        two_ap_y2 (APCoordinates.mk 0 0 2.5 "a") (APCoordinates.mk 20 0 2.5 "b") 10 10) / 2 =
      two_ap_py (APCoordinates.mk 0 0 2.5 "a") (APCoordinates.mk 20 0 2.5 "b") 10 10 ∧
    (_trilaterate_2ap [(APCoordinates.mk 0 0 2.5 "a", 10),
        (APCoordinates.mk 20 0 2.5 "b", 10)]).x =
      two_ap_px (APCoordinates.mk 0 0 2.5 "a") (APCoordinates.mk 20 0 2.5 "b") 10 10 ∧
    (_trilaterate_2ap [(APCoordinates.mk 0 0 2.5 "a", 10),
        (APCoordinates.mk 20 0 2.5 "b", 10)]).y =
      two_ap_py (APCoordinates.mk 0 0 2.5 "a") (APCoordinates.mk 20 0 2.5 "b") 10 10 ∧
    (_trilaterate_2ap [(APCoordinates.mk 0 0 2.5 "a", 10),
        (APCoordinates.mk 20 0 2.5 "b", 10)]).confidence =
      if two_ap_h_sq (APCoordinates.mk 0 0 2.5 "a")
          (APCoordinates.mk 20 0 2.5 "b") 10 10 < 0 then 0.3 else 0.7) :=
  ⟨Or.inl (by norm_num),
   two_ap_branches_same_point (APCoordinates.mk 0 0 2.5 "a")
     (APCoordinates.mk 20 0 2.5 "b") 10 10 [] (Or.inl (by norm_num))⟩

/-- C10: for two-anchor inputs with distinct anchor coordinates the
`except` fallback of the two-anchor solve (confidence 0.2) is unreachable
(the try-block always succeeds), and the two-anchor branch only ever
produces the confidence values 0.1, 0.3 and 0.7. -/
theorem two_ap_no_exception (ap1 ap2 : APCoordinates) (d1 d2 : ℝ)
    (rest : List (APCoordinates × ℝ))
    (hne : ap1.x ≠ ap2.x ∨ ap1.y ≠ ap2.y) :
    (_trilaterate_2ap_try ap1 ap2 d1 d2).isSome = true ∧
    ((_trilaterate_2ap ((ap1, d1) :: (ap2, d2) :: rest)).confidence = 0.1 ∨
     (_trilaterate_2ap ((ap1, d1) :: (ap2, d2) :: rest)).confidence = 0.3 ∨
     (_trilaterate_2ap ((ap1, d1) :: (ap2, d2) :: rest)).confidence = 0.7) := by
  have hd := (two_ap_d_pos ap1 ap2 hne).ne'
  rw [two_ap_try_eq ap1 ap2 d1 d2 hd, two_ap_result_eq ap1 ap2 d1 d2 rest hd]
  refine ⟨rfl, ?_⟩
  by_cases hh : two_ap_h_sq ap1 ap2 d1 d2 < 0
  · exact Or.inr (Or.inl (by simp [hh]))
  · exact Or.inr (Or.inr (by simp [hh]))

/-- Witness for C10 at anchors (0, 0) and (3, 4) with distances 1 and 2. -/
theorem two_ap_no_exception_witness :
    ((APCoordinates.mk 0 0 2.5 "a").x ≠ (APCoordinates.mk 3 4 2.5 "b").x ∨
      (APCoordinates.mk 0 0 2.5 "a").y ≠ (APCoordinates.mk 3 4 2.5 "b").y) ∧
    ((_trilaterate_2ap_try (APCoordinates.mk 0 0 2.5 "a")
        (APCoordinates.mk 3 4 2.5 "b") 1 2).isSome = true ∧
    ((_trilaterate_2ap [(APCoordinates.mk 0 0 2.5 "a", 1),
        (APCoordinates.mk 3 4 2.5 "b", 2)]).confidence = 0.1 ∨
     (_trilaterate_2ap [(APCoordinates.mk 0 0 2.5 "a", 1),
        (APCoordinates.mk 3 4 2.5 "b", 2)]).confidence = 0.3 ∨
     (_trilaterate_2ap [(APCoordinates.mk 0 0 2.5 "a", 1),
        (APCoordinates.mk 3 4 2.5 "b", 2)]).confidence = 0.7)) :=
  ⟨Or.inl (by norm_num),
   two_ap_no_exception (APCoordinates.mk 0 0 2.5 "a")
     (APCoordinates.mk 3 4 2.5 "b") 1 2 [] (Or.inl (by norm_num))⟩

/-- Witness for C4 at anchors both located at (5, 7) with distances 3, 9. -/
theorem trilaterate_2ap_coincident_witness :
    (APCoordinates.mk 5 7 2.5 "a").x = (APCoordinates.mk 5 7 2.5 "b").x ∧
    (APCoordinates.mk 5 7 2.5 "a").y = (APCoordinates.mk 5 7 2.5 "b").y ∧
    _trilaterate_2ap [(APCoordinates.mk 5 7 2.5 "a", 3),
        (APCoordinates.mk 5 7 2.5 "b", 9)] =
      ⟨(APCoordinates.mk 5 7 2.5 "a").x, (APCoordinates.mk 5 7 2.5 "a").y,
        0.1, 2, max 3 9⟩ :=
  ⟨rfl, rfl,
   trilaterate_2ap_coincident (APCoordinates.mk 5 7 2.5 "a")
     (APCoordinates.mk 5 7 2.5 "b") 3 9 [] rfl rfl⟩

/-- C5: for three or more pairs whose anchors are collinear (or, more
generally, whose normal-equations determinant magnitude falls below the
1e-10 threshold), the multi-anchor solve returns the centroid of all
anchor coordinates with confidence exactly 0.3 and error radius equal to
half the mean of the estimated distances, as a plain value (the Python
exception is caught internally, never surfaced). -/
theorem multiap_degenerate_centroid_fallback (ref_ap : APCoordinates)
    (ref_dist : ℝ) (rest : List (APCoordinates × ℝ))
    (h3 : 2 ≤ rest.length)
    (hdeg : CollinearAnchors ((ref_ap, ref_dist) :: rest) ∨
      |normalDet (lsRows ref_ap ref_dist rest)| < 1e-10) :
    _trilaterate_multiap ((ref_ap, ref_dist) :: rest) =
      ⟨pyMean (((ref_ap, ref_dist) :: rest).map fun pr => pr.1.x),
       pyMean (((ref_ap, ref_dist) :: rest).map fun pr => pr.1.y),
       0.3, rest.length + 1,
       pyMean (((ref_ap, ref_dist) :: rest).map fun pr => pr.2) * 0.5⟩ := by
  have hdet : |normalDet (lsRows ref_ap ref_dist rest)| < 1e-10 := by
    rcases hdeg with hcol | hd
    · rw [collinear_normalDet_zero ref_ap ref_dist rest hcol]
      norm_num
    · exact hd
  unfold _trilaterate_multiap
  dsimp only
  rw [if_pos (Or.inl hdet)]
  simp [List.length_cons]

/-- Witness for C5 at the collinear anchors (0,0), (1,0), (2,0) with all
distances 1 (line y = 0, i.e. u = 0, v = 1, c = 0). -/
theorem multiap_degenerate_centroid_fallback_witness :
    2 ≤ ([(APCoordinates.mk 1 0 2.5 "b", 1), (APCoordinates.mk 2 0 2.5 "c", 1)] :
      List (APCoordinates × ℝ)).length ∧
    (CollinearAnchors ((APCoordinates.mk 0 0 2.5 "a", 1) ::
        [(APCoordinates.mk 1 0 2.5 "b", 1), (APCoordinates.mk 2 0 2.5 "c", 1)]) ∨
      |normalDet (lsRows (APCoordinates.mk 0 0 2.5 "a") 1
        [(APCoordinates.mk 1 0 2.5 "b", 1), (APCoordinates.mk 2 0 2.5 "c", 1)])| < 1e-10) ∧
    _trilaterate_multiap ((APCoordinates.mk 0 0 2.5 "a", 1) ::
        [(APCoordinates.mk 1 0 2.5 "b", 1), (APCoordinates.mk 2 0 2.5 "c", 1)]) =
      ⟨pyMean (((APCoordinates.mk 0 0 2.5 "a", 1) ::
          [(APCoordinates.mk 1 0 2.5 "b", 1),
            (APCoordinates.mk 2 0 2.5 "c", 1)]).map fun pr => pr.1.x),
       pyMean (((APCoordinates.mk 0 0 2.5 "a", 1) ::
          [(APCoordinates.mk 1 0 2.5 "b", 1),
            (APCoordinates.mk 2 0 2.5 "c", 1)]).map fun pr => pr.1.y),
       0.3, ([(APCoordinates.mk 1 0 2.5 "b", 1),
            (APCoordinates.mk 2 0 2.5 "c", 1)] : List (APCoordinates × ℝ)).length + 1,
       pyMean (((APCoordinates.mk 0 0 2.5 "a", 1) ::
          [(APCoordinates.mk 1 0 2.5 "b", 1),
            (APCoordinates.mk 2 0 2.5 "c", 1)]).map fun pr => pr.2) * 0.5⟩ :=
  ⟨by norm_num,
   Or.inl ⟨0, 1, 0, Or.inr one_ne_zero,
     by intro pr hpr; fin_cases hpr <;> norm_num⟩,
   multiap_degenerate_centroid_fallback (APCoordinates.mk 0 0 2.5 "a") 1
     [(APCoordinates.mk 1 0 2.5 "b", 1), (APCoordinates.mk 2 0 2.5 "c", 1)]
     (by norm_num)
     (Or.inl ⟨0, 1, 0, Or.inr one_ne_zero,
       by intro pr hpr; fin_cases hpr <;> norm_num⟩)⟩

/-- C1 (amended): for three or more pairs whose distances are exactly the
Euclidean distances from the anchors to a single true point and whose
normal-equations determinant has magnitude at least the code's 1e-10
singularity threshold, the multi-anchor solve returns exactly the true
point, with confidence exactly 1.0 and error radius exactly 0. -/
theorem multiap_exact_recovery (ref_ap : APCoordinates) (ref_dist : ℝ)
    (rest : List (APCoordinates × ℝ)) (px py : ℝ)
    (h3 : 2 ≤ rest.length)
    (href : ref_dist = Real.sqrt ((ref_ap.x - px) ^ 2 + (ref_ap.y - py) ^ 2))
    (hrest : ∀ pr ∈ rest, pr.2 = Real.sqrt ((pr.1.x - px) ^ 2 + (pr.1.y - py) ^ 2))
    (hdet : (1e-10 : ℝ) ≤ |normalDet (lsRows ref_ap ref_dist rest)|) :
    _trilaterate_multiap ((ref_ap, ref_dist) :: rest) =
      ⟨px, py, 1.0, rest.length + 1, 0⟩ := by
  have hdet0 : normalDet (lsRows ref_ap ref_dist rest) ≠ 0 := by
    intro h0
    rw [h0] at hdet
    norm_num at hdet
  have hall : ∀ pr ∈ (ref_ap, ref_dist) :: rest,
      pr.2 = Real.sqrt ((pr.1.x - px) ^ 2 + (pr.1.y - py) ^ 2) := by
    intro pr hpr
    rcases List.mem_cons.mp hpr with rfl | h
    · exact href
    · exact hrest pr h
  have hmax : pyMax (((ref_ap, ref_dist) :: rest).map fun pr => pr.2) ≠ 0 := by
    intro h0
    have hz : ∀ pr ∈ (ref_ap, ref_dist) :: rest, pr.1.x = px ∧ pr.1.y = py := by
      intro pr hpr
      have hle : pr.2 ≤ 0 := by
        rw [← h0]
        exact le_pyMax _ _ (List.mem_map_of_mem _ hpr)
      have hge : 0 ≤ pr.2 := by
        rw [hall pr hpr]
        exact Real.sqrt_nonneg _
      have he : pr.2 = 0 := le_antisymm hle hge
      have harg : (pr.1.x - px) ^ 2 + (pr.1.y - py) ^ 2 = 0 := by
        have hs := hall pr hpr
        rw [he] at hs
        exact (Real.sqrt_eq_zero (by positivity)).mp hs.symm
      constructor
      · have hx2 : (pr.1.x - px) ^ 2 = 0 := by nlinarith [sq_nonneg (pr.1.y - py)]
        have := pow_eq_zero_iff (two_ne_zero (α := ℕ)) |>.mp hx2
        linarith [this]
      · have hy2 : (pr.1.y - py) ^ 2 = 0 := by nlinarith [sq_nonneg (pr.1.x - px)]
        have := pow_eq_zero_iff (two_ne_zero (α := ℕ)) |>.mp hy2
        linarith [this]
    have hrows0 : ∀ r ∈ lsRows ref_ap ref_dist rest, r.1 = 0 ∧ r.2.1 = 0 := by
      intro r hr
      rw [lsRows, List.mem_map] at hr
      obtain ⟨pr, hpr, rfl⟩ := hr
      obtain ⟨hx1, hy1⟩ := hz pr (List.mem_cons_of_mem _ hpr)
      obtain ⟨hx0, hy0⟩ := hz (ref_ap, ref_dist) (List.mem_cons_self _ _)
      dsimp only
      constructor
      · rw [hx1]
        rw [show ref_ap.x = px from hx0]
        ring
      · rw [hy1]
        rw [show ref_ap.y = py from hy0]
        ring
    have z1 : ATA00 (lsRows ref_ap ref_dist rest) = 0 := by
      unfold ATA00
      rw [sum_map_congr _ _ (fun _ => (0 : ℝ))
        (fun r hr => by rw [(hrows0 r hr).1, zero_mul])]
      simp
    have z2 : ATA01 (lsRows ref_ap ref_dist rest) = 0 := by
      unfold ATA01
      rw [sum_map_congr _ _ (fun _ => (0 : ℝ))
        (fun r hr => by rw [(hrows0 r hr).1, zero_mul])]
      simp
    have z3 : ATA10 (lsRows ref_ap ref_dist rest) = 0 := by
      unfold ATA10
      rw [sum_map_congr _ _ (fun _ => (0 : ℝ))
        (fun r hr => by rw [(hrows0 r hr).2, zero_mul])]
      simp
    have z4 : ATA11 (lsRows ref_ap ref_dist rest) = 0 := by
      unfold ATA11
      rw [sum_map_congr _ _ (fun _ => (0 : ℝ))
        (fun r hr => by rw [(hrows0 r hr).2, zero_mul])]
      simp
    apply hdet0
    unfold normalDet
    rw [z1, z2, z3, z4]
    ring
  have hb : ∀ r ∈ lsRows ref_ap ref_dist rest, r.2.2 = r.1 * px + r.2.1 * py := by
    intro r hr
    rw [lsRows, List.mem_map] at hr
    obtain ⟨pr, hpr, rfl⟩ := hr
    have h1 : ref_dist ^ 2 = (ref_ap.x - px) ^ 2 + (ref_ap.y - py) ^ 2 := by
      rw [href]
      exact Real.sq_sqrt (by positivity)
    have h2 : pr.2 ^ 2 = (pr.1.x - px) ^ 2 + (pr.1.y - py) ^ 2 := by
      rw [hrest pr hpr]
      exact Real.sq_sqrt (by positivity)
    dsimp only
    linear_combination h1 - h2
  have hATb0 : ATb0 (lsRows ref_ap ref_dist rest) =
      px * ATA00 (lsRows ref_ap ref_dist rest) +
      py * ATA01 (lsRows ref_ap ref_dist rest) := by
    unfold ATb0 ATA00 ATA01
    rw [← sum_map_linear]
    exact sum_map_congr _ _ _ (fun r hr => by rw [hb r hr]; ring)
  have hATb1 : ATb1 (lsRows ref_ap ref_dist rest) =
      px * ATA10 (lsRows ref_ap ref_dist rest) +
      py * ATA11 (lsRows ref_ap ref_dist rest) := by
    unfold ATb1 ATA10 ATA11
    rw [← sum_map_linear]
    exact sum_map_congr _ _ _ (fun r hr => by rw [hb r hr]; ring)
  have hxeq : (ATA11 (lsRows ref_ap ref_dist rest) * ATb0 (lsRows ref_ap ref_dist rest) -
      ATA01 (lsRows ref_ap ref_dist rest) * ATb1 (lsRows ref_ap ref_dist rest)) /
      normalDet (lsRows ref_ap ref_dist rest) = px := by
    rw [div_eq_iff hdet0, hATb0, hATb1]
    unfold normalDet
    rw [ATA10_eq_ATA01]
    ring
  have hyeq : (ATA00 (lsRows ref_ap ref_dist rest) * ATb1 (lsRows ref_ap ref_dist rest) -
      ATA10 (lsRows ref_ap ref_dist rest) * ATb0 (lsRows ref_ap ref_dist rest)) /
      normalDet (lsRows ref_ap ref_dist rest) = py := by
    rw [div_eq_iff hdet0, hATb0, hATb1]
    unfold normalDet
    rw [ATA10_eq_ATA01]
    ring
  unfold _trilaterate_multiap
  dsimp only
  rw [if_neg (not_or.mpr ⟨not_lt.mpr hdet, hmax⟩), hxeq, hyeq]
  have hres : ∀ r ∈ ((ref_ap, ref_dist) :: rest).map
      (fun pr => |Real.sqrt ((px - pr.1.x) ^ 2 + (py - pr.1.y) ^ 2) - pr.2|), r = 0 := by
    intro r hr
    rw [List.mem_map] at hr
    obtain ⟨pr, hpr, rfl⟩ := hr
    have harg : (px - pr.1.x) ^ 2 + (py - pr.1.y) ^ 2 =
        (pr.1.x - px) ^ 2 + (pr.1.y - py) ^ 2 := by ring
    rw [harg, ← hall pr hpr, sub_self, abs_zero]
  have hR : pyMean (((ref_ap, ref_dist) :: rest).map
      (fun pr => |Real.sqrt ((px - pr.1.x) ^ 2 + (py - pr.1.y) ^ 2) - pr.2|)) = 0 := by
    unfold pyMean
    rw [List.sum_eq_zero hres, zero_div]
  rw [hR, zero_div, sub_zero, max_eq_right (by norm_num : (0.1 : ℝ) ≤ 1.0)]
  simp [List.length_cons]

/-- Witness for C1 (amended) at anchors (0,0), (1,0), (0,1) with exact
distances 0, 1, 1 from the true point (0,0). -/
theorem multiap_exact_recovery_witness :
    2 ≤ ([(APCoordinates.mk 1 0 2.5 "b", 1), (APCoordinates.mk 0 1 2.5 "c", 1)] :
      List (APCoordinates × ℝ)).length ∧
    (0 : ℝ) = Real.sqrt (((APCoordinates.mk 0 0 2.5 "a").x - 0) ^ 2 +
      ((APCoordinates.mk 0 0 2.5 "a").y - 0) ^ 2) ∧
    (∀ pr ∈ ([(APCoordinates.mk 1 0 2.5 "b", 1), (APCoordinates.mk 0 1 2.5 "c", 1)] :
        List (APCoordinates × ℝ)),
      pr.2 = Real.sqrt ((pr.1.x - 0) ^ 2 + (pr.1.y - 0) ^ 2)) ∧
    (1e-10 : ℝ) ≤ |normalDet (lsRows (APCoordinates.mk 0 0 2.5 "a") 0
      [(APCoordinates.mk 1 0 2.5 "b", 1), (APCoordinates.mk 0 1 2.5 "c", 1)])| ∧
    _trilaterate_multiap ((APCoordinates.mk 0 0 2.5 "a", 0) ::
        [(APCoordinates.mk 1 0 2.5 "b", 1), (APCoordinates.mk 0 1 2.5 "c", 1)]) =
      ⟨0, 0, 1.0, ([(APCoordinates.mk 1 0 2.5 "b", 1),
        (APCoordinates.mk 0 1 2.5 "c", 1)] : List (APCoordinates × ℝ)).length + 1, 0⟩ :=
  ⟨by norm_num,
   by norm_num [Real.sqrt_zero],
   by
    intro pr hpr
    fin_cases hpr <;> norm_num,
   by norm_num [normalDet, lsRows, ATA00, ATA01, ATA10, ATA11],
   multiap_exact_recovery (APCoordinates.mk 0 0 2.5 "a") 0
     [(APCoordinates.mk 1 0 2.5 "b", 1), (APCoordinates.mk 0 1 2.5 "c", 1)] 0 0
     (by norm_num)
     (by norm_num [Real.sqrt_zero])
     (by
       intro pr hpr
       fin_cases hpr <;> norm_num)
     (by norm_num [normalDet, lsRows, ATA00, ATA01, ATA10, ATA11])⟩

/-- Anchor (0, 0) of the C1 counterexample. -/
noncomputable def cexA0 : APCoordinates := ⟨0, 0, 2.5, "a"⟩

/-- Anchor (1/10000, 0) of the C1 counterexample. -/
noncomputable def cexA1 : APCoordinates := ⟨1 / 10000, 0, 2.5, "b"⟩

/-- Anchor (0, 1/10000) of the C1 counterexample. -/
noncomputable def cexA2 : APCoordinates := ⟨0, 1 / 10000, 2.5, "c"⟩

/-- The C1 counterexample input: a tiny but genuinely non-degenerate
triangle of anchors with exact Euclidean distances from the true point
(0, 0). -/
noncomputable def cexPairs : List (APCoordinates × ℝ) :=
  [(cexA0, 0), (cexA1, 1 / 10000), (cexA2, 1 / 10000)]

/-- C1 counterexample: the input distances are exactly Euclidean from the
true point (0, 0) and the anchors form a non-degenerate triangle (nonzero
cross product), yet the multi-anchor solve does not return the true point
(its x-coordinate is nonzero — the centroid's) and its confidence is 0.3,
not near 1.0: the triangle is small enough that the 1e-10 determinant
threshold routes it to the centroid fallback. -/
theorem multiap_exact_recovery_cex :
    (∀ pr ∈ cexPairs, pr.2 = Real.sqrt ((pr.1.x - 0) ^ 2 + (pr.1.y - 0) ^ 2)) ∧
    (cexA1.x - cexA0.x) * (cexA2.y - cexA0.y) -
      (cexA2.x - cexA0.x) * (cexA1.y - cexA0.y) ≠ 0 ∧
    (_trilaterate_multiap cexPairs).x ≠ 0 ∧
    (_trilaterate_multiap cexPairs).confidence = 0.3 := by
  have hdet : |normalDet (lsRows cexA0 0 [(cexA1, 1 / 10000), (cexA2, 1 / 10000)])| <
      1e-10 := by
    norm_num [normalDet, lsRows, ATA00, ATA01, ATA10, ATA11, cexA0, cexA1, cexA2,
      abs_lt]
  have hres : _trilaterate_multiap cexPairs =
      ⟨pyMean (cexPairs.map fun pr => pr.1.x),
       pyMean (cexPairs.map fun pr => pr.1.y),
       0.3, cexPairs.length,
       pyMean (cexPairs.map fun pr => pr.2) * 0.5⟩ := by
    rw [show cexPairs = (cexA0, 0) :: [(cexA1, 1 / 10000), (cexA2, 1 / 10000)] from rfl]
    unfold _trilaterate_multiap
    dsimp only
    rw [if_pos (Or.inl hdet)]
  refine ⟨?_, ?_, ?_, ?_⟩
  · intro pr hpr
    fin_cases hpr
    · norm_num [cexA0, Real.sqrt_zero]
    · norm_num [cexA1]
      rw [show (100000000 : ℝ) = 10000 ^ 2 by norm_num,
        Real.sqrt_sq (by norm_num)]
      norm_num
    · norm_num [cexA2]
      rw [show (100000000 : ℝ) = 10000 ^ 2 by norm_num,
        Real.sqrt_sq (by norm_num)]
      norm_num
  · norm_num [cexA0, cexA1, cexA2]
  · rw [hres]
    norm_num [pyMean, cexPairs, cexA0, cexA1, cexA2]
  · rw [hres]

/-- Fewer than two usable pairs always yield no estimate. -/
lemma trilaterate_insufficient (reg : String → Option APCoordinates)
    (p : TriangulatorParams) (signals : List ClientSignal)
    (hlt : (ap_distances reg p signals).length < 2) :
    trilaterate reg p signals = none := by
  unfold trilaterate
  dsimp only
  split_ifs with h1 h2 <;> first | rfl | exact absurd hlt h2

/-- C2 (amended): `trilaterate` produces a LocationEstimate exactly when
at least two usable (anchor, distance) pairs survive the
registered-anchor filter; the contributing anchors need not be distinct
(two observations of one registered anchor still produce the degenerate
confidence-0.1 estimate). -/
theorem trilaterate_isSome_iff (reg : String → Option APCoordinates)
    (p : TriangulatorParams) (signals : List ClientSignal) :
    (trilaterate reg p signals).isSome = true ↔
      2 ≤ (ap_distances reg p signals).length := by
  have hlen : (ap_distances reg p signals).length ≤ signals.length := by
    unfold ap_distances
    exact List.length_filterMap_le _ _
  unfold trilaterate
  dsimp only
  split_ifs with h1 h2 h3 <;> simp <;> omega

/-- The single-anchor registry of the C2 counterexample: only "ap1" is
registered, at the origin. -/
noncomputable def cexReg : String → Option APCoordinates :=
  fun n => if n = "ap1" then some ⟨0, 0, 2.5, "ap1"⟩ else none

/-- First observation of the C2 counterexample (anchor "ap1"). -/
noncomputable def cexSig1 : ClientSignal := ⟨"m", "ap1", -20, 100, 2.4⟩

/-- Second observation of the C2 counterexample (same anchor "ap1"). -/
noncomputable def cexSig2 : ClientSignal := ⟨"m", "ap1", -25, 100, 2.4⟩

/-- C2 counterexample: two observations that both reference the same
single registered anchor still make `trilaterate` return an estimate
(only one distinct registered anchor contributed to the fit). -/
theorem trilaterate_single_anchor_cex :
    cexSig1.ap_name = "ap1" ∧ cexSig2.ap_name = "ap1" ∧
    (trilaterate cexReg (mkParams "indoor") [cexSig1, cexSig2]).isSome = true := by
  refine ⟨rfl, rfl, ?_⟩
  simp [trilaterate, ap_distances, cexReg, cexSig1, cexSig2]

/-- C6: the recency filter of `track_clients` retains exactly the
observations whose timestamp is within 30 seconds of the newest timestamp
of the client's group; in particular three observations at T, T-10 and
T-45 seconds are filtered to the first two. -/
theorem track_recency_filter (sigs : List ClientSignal) (s : ClientSignal)
    (hne : sigs ≠ []) (o1 o2 o3 : ClientSignal) (T : ℝ)
    (h1 : o1.timestamp = T) (h2 : o2.timestamp = T - 10)
    (h3 : o3.timestamp = T - 45) :
    (s ∈ recent_signals sigs ↔
      s ∈ sigs ∧ pyMax (sigs.map fun t => t.timestamp) - s.timestamp ≤ 30) ∧
    recent_signals [o1, o2, o3] = [o1, o2] := by
  constructor
  · obtain ⟨y, ys, rfl⟩ := List.exists_cons_of_ne_nil hne
    simp [recent_signals, List.mem_filter]
  · have hmax : pyMax ([o1, o2, o3].map fun t => t.timestamp) = T := by
      simp [pyMax, h1, h2, h3]
    unfold recent_signals
    rw [hmax]
    simp only [List.filter_cons, List.filter_nil, decide_eq_true_eq, h1, h2, h3]
    rw [if_pos (by linarith : T - T ≤ 30),
      if_pos (by linarith : T - (T - 10) ≤ 30),
      if_neg (show ¬(T - (T - 45) ≤ 30) from fun hc => by linarith)]

/-- Witness for C6: one-element group and three observations at
timestamps 100, 90 and 55 (T = 100). -/
theorem track_recency_filter_witness :
    ([ClientSignal.mk "w" "a" (-50) 7 2.4] : List ClientSignal) ≠ [] ∧
    (ClientSignal.mk "c" "a" (-40) 100 2.4).timestamp = 100 ∧
    (ClientSignal.mk "c" "a" (-45) 90 2.4).timestamp = (100 : ℝ) - 10 ∧
    (ClientSignal.mk "c" "a" (-60) 55 2.4).timestamp = (100 : ℝ) - 45 ∧
    ((ClientSignal.mk "w" "a" (-50) 7 2.4 ∈
        recent_signals [ClientSignal.mk "w" "a" (-50) 7 2.4] ↔
      ClientSignal.mk "w" "a" (-50) 7 2.4 ∈
          ([ClientSignal.mk "w" "a" (-50) 7 2.4] : List ClientSignal) ∧
        pyMax (([ClientSignal.mk "w" "a" (-50) 7 2.4] :
            List ClientSignal).map fun t => t.timestamp) -
          (ClientSignal.mk "w" "a" (-50) 7 2.4).timestamp ≤ 30) ∧
    recent_signals [ClientSignal.mk "c" "a" (-40) 100 2.4,
        ClientSignal.mk "c" "a" (-45) 90 2.4,
        ClientSignal.mk "c" "a" (-60) 55 2.4] =
      [ClientSignal.mk "c" "a" (-40) 100 2.4,
        ClientSignal.mk "c" "a" (-45) 90 2.4]) :=
  ⟨by simp, rfl, by norm_num, by norm_num,
   track_recency_filter [ClientSignal.mk "w" "a" (-50) 7 2.4]
     (ClientSignal.mk "w" "a" (-50) 7 2.4) (by simp)
     (ClientSignal.mk "c" "a" (-40) 100 2.4)
     (ClientSignal.mk "c" "a" (-45) 90 2.4)
     (ClientSignal.mk "c" "a" (-60) 55 2.4) 100 rfl (by norm_num) (by norm_num)⟩

/-- Any recency-filtered group is no longer than the group itself. -/
lemma recent_signals_length_le (l : List ClientSignal) :
    (recent_signals l).length ≤ l.length := by
  cases l with
  | nil => simp [recent_signals]
  | cons y ys => simpa [recent_signals] using List.length_filter_le _ (y :: ys)

/-- C7: an observation naming an unregistered anchor is silently skipped
by the pair-building loop (never an error); when fewer than two usable
pairs remain the solver returns no estimate, and a client whose
recency-filtered group leaves fewer than two usable pairs is omitted from
the track mapping. -/
theorem unregistered_skipped_and_omitted (reg : String → Option APCoordinates)
    (p : TriangulatorParams) (s0 : ClientSignal) (rest : List ClientSignal)
    (signals : List ClientSignal) (all_signals : List ClientSignal) (mac : String)
    (hunreg : reg s0.ap_name = none)
    (hlt : (ap_distances reg p signals).length < 2)
    (hlt2 : (ap_distances reg p
      (recent_signals (clientGroup all_signals mac))).length < 2) :
    ap_distances reg p (s0 :: rest) = ap_distances reg p rest ∧
    trilaterate reg p signals = none ∧
    track_clients reg p all_signals mac = none := by
  refine ⟨?_, trilaterate_insufficient reg p signals hlt, ?_⟩
  · simp [ap_distances, List.filterMap_cons, hunreg]
  · rcases hh : recent_signals (clientGroup all_signals mac) with _ | ⟨y, ys⟩
    · unfold track_clients
      rw [hh]
    · have htri := trilaterate_insufficient reg p (y :: ys) (hh ▸ hlt2)
      unfold track_clients
      rw [hh]
      dsimp only
      rw [htri]

/-- Witness for C7: the only observation names the unregistered anchor
"ghost", so the solver yields nothing and client "m" is omitted. -/
theorem unregistered_skipped_and_omitted_witness :
    cexReg (ClientSignal.mk "m" "ghost" (-50) 100 2.4).ap_name = none ∧
    (ap_distances cexReg (mkParams "indoor")
      [ClientSignal.mk "m" "ghost" (-50) 100 2.4]).length < 2 ∧
    (ap_distances cexReg (mkParams "indoor")
      (recent_signals (clientGroup [ClientSignal.mk "m" "ghost" (-50) 100 2.4]
        "m"))).length < 2 ∧
    (ap_distances cexReg (mkParams "indoor")
        (ClientSignal.mk "m" "ghost" (-50) 100 2.4 :: []) =
      ap_distances cexReg (mkParams "indoor") [] ∧
    trilaterate cexReg (mkParams "indoor")
      [ClientSignal.mk "m" "ghost" (-50) 100 2.4] = none ∧
    track_clients cexReg (mkParams "indoor")
      [ClientSignal.mk "m" "ghost" (-50) 100 2.4] "m" = none) := by
  have h2 : (ap_distances cexReg (mkParams "indoor")
      [ClientSignal.mk "m" "ghost" (-50) 100 2.4]).length < 2 := by
    simp [ap_distances, cexReg]
  have h3 : (ap_distances cexReg (mkParams "indoor")
      (recent_signals (clientGroup [ClientSignal.mk "m" "ghost" (-50) 100 2.4]
        "m"))).length < 2 := by
    have c1 : (ap_distances cexReg (mkParams "indoor")
        (recent_signals (clientGroup [ClientSignal.mk "m" "ghost" (-50) 100 2.4]
          "m"))).length ≤
        (recent_signals (clientGroup [ClientSignal.mk "m" "ghost" (-50) 100 2.4]
          "m")).length := by
      unfold ap_distances
      exact List.length_filterMap_le _ _
    have c2 := recent_signals_length_le
      (clientGroup [ClientSignal.mk "m" "ghost" (-50) 100 2.4] "m")
    have c3 : (clientGroup [ClientSignal.mk "m" "ghost" (-50) 100 2.4] "m").length ≤ 1 := by
      simpa [clientGroup] using
        List.length_filter_le _ [ClientSignal.mk "m" "ghost" (-50) 100 2.4]
    omega
  exact ⟨by simp [cexReg], h2, h3,
    unregistered_skipped_and_omitted cexReg (mkParams "indoor")
      (ClientSignal.mk "m" "ghost" (-50) 100 2.4) []
      [ClientSignal.mk "m" "ghost" (-50) 100 2.4]
      [ClientSignal.mk "m" "ghost" (-50) 100 2.4] "m"
      (by simp [cexReg]) h2 h3⟩

/-- C8: a client has a value in the track mapping exactly when the solver
produced an estimate on the client's recency-filtered group whose
confidence strictly exceeds 0.1; confidence exactly 0.1 (for example the
coincident-anchor result) is silently omitted, not an error. -/
theorem track_confidence_floor (reg : String → Option APCoordinates)
    (p : TriangulatorParams) (all_signals : List ClientSignal) (mac : String)
    (loc : LocationEstimate) :
    track_clients reg p all_signals mac = some loc ↔
      (trilaterate reg p (recent_signals (clientGroup all_signals mac)) =
        some loc ∧ 0.1 < loc.confidence) := by
  have hnil : trilaterate reg p [] = none := by
    unfold trilaterate
    rw [if_pos (by norm_num)]
  rcases hh : recent_signals (clientGroup all_signals mac) with _ | ⟨y, ys⟩
  · unfold track_clients
    rw [hh, hnil]
    simp
  · unfold track_clients
    rw [hh]
    dsimp only
    rcases ht : trilaterate reg p (y :: ys) with _ | l
    · simp
    · dsimp only
      by_cases hc : l.confidence > 0.1
      · rw [if_pos hc]
        constructor
        · intro h
          obtain rfl : l = loc := Option.some.inj h
          exact ⟨rfl, hc⟩
        · intro h
          exact h.1
      · rw [if_neg hc]
        simp only [Option.some.injEq]
        constructor
        · intro h
          exact Option.noConfusion h
        · rintro ⟨rfl, hgt⟩
          exact absurd hgt hc
